import Mathlib

/-!
Verification of the gomorph mapper library (mapper.go and friends) against its
natural-language specification.  The Go code is shallowly embedded: Go's
`reflect.Type` values become an abstract type `Ty` with decidable equality,
dynamically typed Go values (`any`) become an abstract type `Val` together with
an explicit `typeOf : Val → Ty` modelling the runtime type tag, Go errors become
structured error values, and a Go `panic` during construction is modelled as an
`Except.error` result of the constructor function.
-/

set_option linter.unusedVariables false

namespace Gomorph

/-- Embeds the Go interface `TypedMapper` (mapper.go): runtime type metadata
`SourceType`/`TargetType` plus a dynamically typed, fallible transformation
`From`.  Element errors are strings, as Go errors are messages here. -/
structure TypedMapper (Val Ty : Type) where
  SourceType : Ty
  TargetType : Ty
  From : Val → Except String Val

/-- Embeds `ChainedMapper[TSource, TDest]` (mapper.go:158): the two generic
type parameters become the fields `sourceType` and `destType`. -/
structure ChainedMapper (Val Ty : Type) where
  sourceType : Ty
  destType : Ty
  mappers : List (TypedMapper Val Ty)

/-- The three panic messages of `NewChainedMapper` (mapper.go:172,178,188),
as structured values. -/
inductive ChainError (Ty : Type) where
  | firstMapperMustAccept (expected got : Ty)
  | lastMapperMustProduce (expected got : Ty)
  | typeMismatchBetween (i j : Nat)
  deriving DecidableEq

/-- Embeds the adjacency loop of `NewChainedMapper` (mapper.go:181-190):
returns the index of the first adjacent pair whose output/input types differ,
starting the count at `i`, or `none` when every pair is aligned. -/
def checkAdjacent {Val Ty : Type} [DecidableEq Ty] :
    Nat → List (TypedMapper Val Ty) → Option Nat
  | _, [] => none
  | _, [_] => none
  | i, m1 :: m2 :: rest =>
    if m1.TargetType ≠ m2.SourceType then some i
    else checkAdjacent (i + 1) (m2 :: rest)

/-- Embeds `NewChainedMapper` (mapper.go:163-193).  The Go function panics on a
misconfigured chain; a panic is modelled as `.error`.  With zero mappers the Go
code returns immediately with no checks at all (mapper.go:164-166). -/
def NewChainedMapper {Val Ty : Type} [DecidableEq Ty] (srcTy dstTy : Ty) :
    List (TypedMapper Val Ty) → Except (ChainError Ty) (ChainedMapper Val Ty)
  | [] => .ok ⟨srcTy, dstTy, []⟩
  | m0 :: rest =>
    if m0.SourceType ≠ srcTy then
      .error (.firstMapperMustAccept srcTy m0.SourceType)
    else if ((m0 :: rest).getLast (List.cons_ne_nil m0 rest)).TargetType ≠ dstTy then
      .error (.lastMapperMustProduce dstTy
        ((m0 :: rest).getLast (List.cons_ne_nil m0 rest)).TargetType)
    else
      match checkAdjacent 0 (m0 :: rest) with
      | some i => .error (.typeMismatchBetween i (i + 1))
      | none => .ok ⟨srcTy, dstTy, m0 :: rest⟩

/-- The two error shapes of `ChainedMapper.Map` (mapper.go:202,209): a wrapped
step failure carrying the 1-based step index, or the failed final cast to the
destination type.  A `.error` result models Go returning the zero destination
value together with a non-nil error. -/
inductive MapError (Ty : Type) where
  | stepFailed (i : Nat) (cause : String)
  | finalTypeMismatch (expected : Ty)
  deriving DecidableEq

/-- Embeds the loop of `ChainedMapper.Map` (mapper.go:198-204): thread the value
through the mappers; on the first failing step return its error paired with the
1-based step index (`i` counts the steps already executed). -/
def runMappers {Val Ty : Type} :
    List (TypedMapper Val Ty) → Nat → Val → Except (Nat × String) Val
  | [], _, current => .ok current
  | m :: rest, i, current =>
    match m.From current with
    | .error e => .error (i + 1, e)
    | .ok next => runMappers rest (i + 1) next

/-- Embeds `ChainedMapper.Map` (mapper.go:195-212): run the steps, then perform
the final type assertion `current.(TDest)`, which succeeds exactly when the
runtime type of the final value equals the declared destination type. -/
def ChainedMapper.Map {Val Ty : Type} [DecidableEq Ty] (typeOf : Val → Ty)
    (c : ChainedMapper Val Ty) (input : Val) : Except (MapError Ty) Val :=
  match runMappers c.mappers 0 input with
  | .error (i, e) => .error (.stepFailed i e)
  | .ok current =>
    if typeOf current = c.destType then .ok current
    else .error (.finalTypeMismatch c.destType)

/-- The left-to-right composition of the individual steps, written from the
spec words of the composition property: feed the input to the first step and
each output to the next step, with no final type check.  Used to compare
`ChainedMapper.Map` against the claimed composition semantics. -/
def composeSteps {Val Ty : Type} :
    List (TypedMapper Val Ty) → Val → Except String Val
  | [], v => .ok v
  | m :: rest, v =>
    match m.From v with
    | .error e => .error e
    | .ok v2 => composeSteps rest v2

/-- The index of the first adjacent pair whose declared output/input types
differ, written from the spec words (the offending adjacent pair index). -/
def firstMismatchedPair {Val Ty : Type} [DecidableEq Ty] :
    List (TypedMapper Val Ty) → Option Nat
  | m1 :: m2 :: rest =>
    if m1.TargetType ≠ m2.SourceType then some 0
    else (firstMismatchedPair (m2 :: rest)).map (· + 1)
  | _ => none

/-- A small concrete universe of Go runtime types used for witnesses and
counterexamples: base types (numbered) and slice types. -/
inductive GoTy where
  | base (n : Nat)
  | slice (elem : GoTy)
  deriving DecidableEq

/-- Concrete dynamically typed Go values: a scalar of some base type, or a
slice value carrying its element type, as a boxed Go slice does. -/
inductive GoVal where
  | base (ty : Nat) (data : Nat)
  | slice (elemTy : GoTy) (elems : List GoVal)

/-- The runtime type tag of a concrete value, as `reflect.TypeOf` reports it. -/
def GoVal.typeOf : GoVal → GoTy
  | .base t _ => .base t
  | .slice t _ => .slice t

/-- Embeds the generic instantiation `SliceMapper[TSource, TDest, T, D]`
(mapper.go:96): the type parameters `T` and `D` become `elemSrcTy` and
`elemDstTy`; by the `Slice` constraints, `TSource` is the slice type of
`elemSrcTy` and `TDest` the slice type of `elemDstTy`. -/
structure SliceMapper where
  elemSrcTy : GoTy
  elemDstTy : GoTy
  elementMapper : TypedMapper GoVal GoTy

/-- Outcomes of `SliceMapper.From` other than success: the invalid-source-type
error (mapper.go:124), an error returned unchanged from the element mapper
(mapper.go:131), and `castPanic`, which models the Go runtime panic raised by
the unchecked assertion `transformed.(D)` (mapper.go:133) when the element
mapper returns a value of the wrong runtime type.  `castPanic` is a crash in
Go, not a returned error; it is kept distinct from the returned errors. -/
inductive SliceErr where
  | invalidSourceType (expected got : GoTy)
  | elementErr (e : String)
  | castPanic
  deriving DecidableEq

/-- Embeds the element loop of `SliceMapper.From` (mapper.go:128-134): map each
element in order, stopping at the first element error (returned unchanged), and
append each transformed value after the `transformed.(D)` assertion. -/
def sliceFromLoop (em : GoVal → Except String GoVal) (d : GoTy) :
    List GoVal → List GoVal → Except SliceErr (List GoVal)
  | [], acc => .ok acc
  | x :: xs, acc =>
    match em x with
    | .error e => .error (.elementErr e)
    | .ok y =>
      if y.typeOf = d then sliceFromLoop em d xs (acc ++ [y])
      else .error .castPanic

/-- Embeds `SliceMapper.SourceType` (mapper.go:111-114): the reflect type of the
zero `Tsource` value, i.e. the slice type over the element source type. -/
def SliceMapper.SourceType (sm : SliceMapper) : GoTy :=
  .slice sm.elemSrcTy

/-- Embeds `SliceMapper.TargetType` (mapper.go:116-119).  Note that the Go body
is `var zero T; return reflect.TypeOf(zero)`: it reports the type of the type
parameter `T`, which is the ELEMENT SOURCE type, not the declared destination
slice type `TDest`. -/
def SliceMapper.TargetType (sm : SliceMapper) : GoTy :=
  sm.elemSrcTy

/-- Embeds `SliceMapper.From` (mapper.go:121-137): assert the source is a slice
of the element source type (the Go assertion `source.([]T)` succeeds exactly
when the runtime type is that slice type), then run the element loop and wrap
the accumulated result as a destination slice value. -/
def SliceMapper.From (sm : SliceMapper) (source : GoVal) : Except SliceErr GoVal :=
  match source with
  | .slice t elems =>
    if t = sm.elemSrcTy then
      match sliceFromLoop sm.elementMapper.From sm.elemDstTy elems [] with
      | .error e => .error e
      | .ok res => .ok (.slice sm.elemDstTy res)
    else .error (.invalidSourceType (.slice sm.elemSrcTy) (.slice t))
  | v => .error (.invalidSourceType (.slice sm.elemSrcTy) v.typeOf)

/-- The shape of a source aggregate as `getFieldValueByName` (mapper.go:302-334)
distinguishes it by `reflect.Kind`: a struct with named fields (the Bool is
`CanInterface`, i.e. whether the field is exported), a string-keyed map, or any
other kind.  Pointer indirection (mapper.go:305-307) is abstracted away: the
object is the already dereferenced value. -/
inductive SrcKind (Val : Type) where
  | struct (fields : List (String × Bool × Val))
  | keyed (entries : List (String × Val))
  | other

/-- A source aggregate: its kind-specific data plus its zero-argument,
single-result accessor methods, each modelled by the value it returns for this
receiver.  Go methods with other arities are skipped by the code
(mapper.go:329) and are therefore not represented. -/
structure SrcObj (Val : Type) where
  kind : SrcKind Val
  methods : List (String × Val)

/-- Name lookup in an association list, as Go name resolution finds the first
entry with the given name. -/
def lookupStr {α : Type} (l : List (String × α)) (name : String) : Option α :=
  (l.find? (fun p => p.1 == name)).map (fun p => p.2)

/-- Embeds `getFieldValueByName` (mapper.go:302-334).  The Go code tries, in
this order: an exported struct field of that name (only when the value is a
struct), a map key of that name (only when the value is a map), and finally a
zero-argument single-result method of that name; otherwise it fails with the
not-found error naming the field. -/
def getFieldValueByName {Val : Type} (obj : SrcObj Val) (name : String) :
    Except String Val :=
  let direct : Option Val :=
    match obj.kind with
    | .struct fields =>
      match lookupStr fields name with
      | some (canInterface, v) => if canInterface then some v else none
      | none => none
    | .keyed entries => lookupStr entries name
    | .other => none
  match direct with
  | some v => .ok v
  | none =>
    match lookupStr obj.methods name with
    | some v => .ok v
    | none => .error ("field or zero-arg getter " ++ name ++ " not found")

/-- The extract resolution order as the claim words it: (a) a direct struct
field, then (b) a zero-argument accessor method, then (c) a keyed-map lookup.
Written from the spec words, to be compared with `getFieldValueByName`. -/
def getFieldValueByNameSpecOrder {Val : Type} (obj : SrcObj Val) (name : String) :
    Except String Val :=
  let tierA : Option Val :=
    match obj.kind with
    | .struct fields =>
      match lookupStr fields name with
      | some (canInterface, v) => if canInterface then some v else none
      | none => none
    | _ => none
  match tierA with
  | some v => .ok v
  | none =>
    match lookupStr obj.methods name with
    | some v => .ok v
    | none =>
      match (match obj.kind with
             | .keyed entries => lookupStr entries name
             | _ => none) with
      | some v => .ok v
      | none => .error ("field or zero-arg getter " ++ name ++ " not found")

/-- A destination struct field as `assignValue` sees it through reflection: its
declared type and whether it is settable (exported and addressable). -/
structure DestField (Ty : Type) where
  ty : Ty
  canSet : Bool

/-- The static shape of a destination aggregate: its named fields and its
single-argument mutator methods, each with the declared parameter type. -/
structure DestShape (Ty : Type) where
  fields : List (String × DestField Ty)
  methods : List (String × Ty)

/-- The mutable contents of a destination aggregate: values written to fields
and mutator calls performed, in order.  This is the observable effect of the
Go code mutating the destination through reflection. -/
structure DestState (Val : Type) where
  fieldVals : List (String × Val)
  methodCalls : List (String × Val)
  deriving Repr

/-- The error shapes of `assignValue` (mapper.go:282,293,299): a field
assignability failure, a method argument assignability failure, and the final
could-not-assign error naming the destination field. -/
inductive AssignErr (Ty : Type) where
  | typeMismatch (got want : Ty)
  | methodTypeMismatch (name : String) (got want : Ty)
  | notFound (name : String)
  deriving DecidableEq

/-- Embeds `assignValue` (mapper.go:272-300).  If a field of that name exists
and is settable, its declared type must accept the value (`AssignableTo` is
modelled as runtime type equality): a mismatch is an immediate error, with no
fallback.  Only when no settable field of that name exists is a one-argument
method of that name tried, again with a type check; otherwise the not-found
error is returned. -/
def assignValue {Val Ty : Type} [DecidableEq Ty] (typeOf : Val → Ty)
    (shape : DestShape Ty) (st : DestState Val) (toName : String) (value : Val) :
    Except (AssignErr Ty) (DestState Val) :=
  let viaMethod : Except (AssignErr Ty) (DestState Val) :=
    match lookupStr shape.methods toName with
    | some argTy =>
      if typeOf value = argTy then
        .ok ⟨st.fieldVals, st.methodCalls ++ [(toName, value)]⟩
      else .error (.methodTypeMismatch toName (typeOf value) argTy)
    | none => .error (.notFound toName)
  match lookupStr shape.fields toName with
  | some f =>
    if f.canSet then
      if typeOf value = f.ty then
        .ok ⟨st.fieldVals ++ [(toName, value)], st.methodCalls⟩
      else .error (.typeMismatch (typeOf value) f.ty)
    else viaMethod
  | none => viaMethod

/-- The assign resolution as the claim words it: a two-tier order with the
first COMPATIBLE match winning, so a settable field whose type does not accept
the value is passed over in favour of a compatible mutator method.  Written
from the spec words, to be compared with `assignValue`. -/
def assignValueSpecOrder {Val Ty : Type} [DecidableEq Ty] (typeOf : Val → Ty)
    (shape : DestShape Ty) (st : DestState Val) (toName : String) (value : Val) :
    Except (AssignErr Ty) (DestState Val) :=
  let fieldCompatible : Bool :=
    match lookupStr shape.fields toName with
    | some f => f.canSet && decide (typeOf value = f.ty)
    | none => false
  if fieldCompatible then
    .ok ⟨st.fieldVals ++ [(toName, value)], st.methodCalls⟩
  else
    match lookupStr shape.methods toName with
    | some argTy =>
      if typeOf value = argTy then
        .ok ⟨st.fieldVals, st.methodCalls ++ [(toName, value)]⟩
      else .error (.methodTypeMismatch toName (typeOf value) argTy)
    | none =>
      match lookupStr shape.fields toName with
      | some f =>
        if f.canSet then .error (.typeMismatch (typeOf value) f.ty)
        else .error (.notFound toName)
      | none => .error (.notFound toName)

/-- Embeds the `FieldMapper` interface as `mapStruct` consumes it
(mapper.go:336-357): the source and destination field names, and the
transformation whose successful result is the value that gets assigned
(`mapped.MappedValue().Value()`). -/
structure FieldMapperM (Val : Type) where
  fromName : String
  toName : String
  mapFn : Val → Except String Val

/-- The three wrapped error shapes of `mapStruct` (mapper.go:343,348,353):
input (extract), mapping (transform) and output (assign) errors, each naming
the field. -/
inductive MapStructErr (Ty : Type) where
  | inputError (field : String) (cause : String)
  | mappingError (field : String) (cause : String)
  | outputError (field : String) (cause : AssignErr Ty)
  deriving DecidableEq

/-- The body of one iteration of the `mapStruct` loop (mapper.go:337-355):
extract the source field, transform it, assign the result, wrapping each
phase error with the field name. -/
def processBinding {Val Ty : Type} [DecidableEq Ty] (typeOf : Val → Ty)
    (input : SrcObj Val) (shape : DestShape Ty) (st : DestState Val)
    (fm : FieldMapperM Val) : Except (MapStructErr Ty) (DestState Val) :=
  match getFieldValueByName input fm.fromName with
  | .error e => .error (.inputError fm.fromName e)
  | .ok rawValue =>
    match fm.mapFn rawValue with
    | .error e => .error (.mappingError fm.fromName e)
    | .ok mapped =>
      match assignValue typeOf shape st fm.toName mapped with
      | .error e => .error (.outputError fm.toName e)
      | .ok st2 => .ok st2

/-- Embeds `mapStruct` (mapper.go:336-357).  The Go function mutates the
destination in place and returns only an error; here the destination state is
threaded explicitly and returned next to the optional error, which is the pair
`StructMapper.From` hands back to the caller. -/
def mapStruct {Val Ty : Type} [DecidableEq Ty] (typeOf : Val → Ty)
    (input : SrcObj Val) (shape : DestShape Ty) (st : DestState Val) :
    List (FieldMapperM Val) → DestState Val × Option (MapStructErr Ty)
  | [] => (st, none)
  | fm :: rest =>
    match processBinding typeOf input shape st fm with
    | .error e => (st, some e)
    | .ok st2 => mapStruct typeOf input shape st2 rest

/-- Embeds `StructMapper[TSource, TDest]` (mapper.go:240): the ordered field
bindings. -/
structure StructMapper (Val : Type) where
  fieldMappings : List (FieldMapperM Val)

/-- The zero value of the destination aggregate (`var output TDest`,
mapper.go:257): nothing assigned yet. -/
def zeroDest (Val : Type) : DestState Val := ⟨[], []⟩

/-- Embeds `StructMapper.From` (mapper.go:256-263): run `mapStruct` against a
zero destination value and return the (possibly partially populated)
destination together with the error, if any. -/
def StructMapper.From {Val Ty : Type} [DecidableEq Ty] (typeOf : Val → Ty)
    (shape : DestShape Ty) (b : StructMapper Val) (input : SrcObj Val) :
    DestState Val × Option (MapStructErr Ty) :=
  mapStruct typeOf input shape (zeroDest Val) b.fieldMappings

/-! ### Concrete steps and aggregates used by witnesses and counterexamples -/

/-- An identity-shaped step declared on base type 1. -/
def idStepB1 : TypedMapper GoVal GoTy := ⟨.base 1, .base 1, fun v => .ok v⟩

/-- An identity-shaped step declared on base type 0. -/
def idStepB0 : TypedMapper GoVal GoTy := ⟨.base 0, .base 0, fun v => .ok v⟩

/-- A step declared base 1 to base 1 whose output value nevertheless has
runtime type base 0: it lies about its declared output type. -/
def lyingStep : TypedMapper GoVal GoTy :=
  ⟨.base 1, .base 1, fun _ => .ok (.base 0 0)⟩

/-- A successor step on base values, declared on base type 1. -/
def incStep : TypedMapper GoVal GoTy :=
  ⟨.base 1, .base 1, fun v =>
    match v with
    | .base t n => .ok (.base t (n + 1))
    | _ => .error "expected base value"⟩

/-- A doubling step on base values, declared on base type 1. -/
def doubleStep : TypedMapper GoVal GoTy :=
  ⟨.base 1, .base 1, fun v =>
    match v with
    | .base t n => .ok (.base t (2 * n))
    | _ => .error "expected base value"⟩

/-- A step that always fails. -/
def failStep : TypedMapper GoVal GoTy := ⟨.base 1, .base 1, fun _ => .error "boom"⟩

/-- No direct match for the extract phase: for a struct, no exported field of
that name; for a keyed map, no entry under that name; any other kind has no
direct tier at all. -/
def srcDirectMiss {Val : Type} (obj : SrcObj Val) (name : String) : Prop :=
  match obj.kind with
  | .struct fields =>
    lookupStr fields name = none ∨ ∃ v, lookupStr fields name = some (false, v)
  | .keyed entries => lookupStr entries name = none
  | .other => True

/-- No settable field of the given name exists on the destination shape. -/
def destFieldMiss {Ty : Type} (shape : DestShape Ty) (toName : String) : Prop :=
  lookupStr shape.fields toName = none
  ∨ ∃ f, lookupStr shape.fields toName = some f ∧ f.canSet = false

/-- A source struct with one exported field A holding the base-0 value 1. -/
def srcObjW : SrcObj GoVal := ⟨.struct [("A", true, .base 0 1)], []⟩

/-- A destination shape with one settable base-0 field X and no methods. -/
def destShapeW : DestShape GoTy := ⟨[("X", ⟨.base 0, true⟩)], []⟩

/-- A binding copying source field A to destination field X unchanged. -/
def fmAtoX : FieldMapperM GoVal := ⟨"A", "X", fun v => .ok v⟩

/-- A binding copying source field B to destination field X unchanged. -/
def fmBtoX : FieldMapperM GoVal := ⟨"B", "X", fun v => .ok v⟩

/-- A keyed map whose key Foo holds the base-0 value 1 and which also has a
zero-argument accessor method Foo returning the base-0 value 2 — in Go, a
named map type with a method of that name. -/
def mapWithMethodObj : SrcObj GoVal :=
  ⟨.keyed [("Foo", .base 0 1)], [("Foo", .base 0 2)]⟩

/-- A non-struct, non-map source with a single zero-argument method Bar. -/
def otherWithMethodObj : SrcObj GoVal := ⟨.other, [("Bar", .base 0 3)]⟩

/-- A destination with a settable base-1 field X and a mutator method X taking
base 0 — in Go such a pair arises from a promoted (embedded) field plus a
method of the same name on the outer type. -/
def intFieldStrMethodShape : DestShape GoTy :=
  ⟨[("X", ⟨.base 1, true⟩)], [("X", .base 0)]⟩

/-- A destination with a non-settable field Y and a mutator method Y. -/
def nonsetFieldShape : DestShape GoTy :=
  ⟨[("Y", ⟨.base 1, false⟩)], [("Y", .base 1)]⟩

/-- An element step mapping base-0 values to base-1 values, as the test
suite's string-length element mapper maps strings to ints. -/
def lenStep : TypedMapper GoVal GoTy :=
  ⟨.base 0, .base 1, fun v =>
    match v with
    | .base 0 n => .ok (.base 1 n)
    | _ => .error "expected string"⟩

/-- The slice mapper built over `lenStep`, as NewSliceMapper with source slice
of base 0 and destination slice of base 1. -/
def strToIntSlice : SliceMapper := ⟨.base 0, .base 1, lenStep⟩

/-- An element step failing exactly on the base-0 value 7 with error boom. -/
def pickyStep : TypedMapper GoVal GoTy :=
  ⟨.base 0, .base 1, fun v =>
    match v with
    | .base 0 7 => .error "boom"
    | .base 0 n => .ok (.base 1 n)
    | _ => .error "expected string"⟩

/-- The slice mapper built over `pickyStep`. -/
def pickySlice : SliceMapper := ⟨.base 0, .base 1, pickyStep⟩

/-! ### Helper lemmas about the chain composer -/

theorem checkAdjacent_none_iff {Val Ty : Type} [DecidableEq Ty]
    (ms : List (TypedMapper Val Ty)) :
    ∀ i, checkAdjacent i ms = none ↔
      List.Chain' (fun a b => a.TargetType = b.SourceType) ms := by
  induction ms with
  | nil => intro i; simp [checkAdjacent]
  | cons m1 tail ih =>
    intro i
    cases tail with
    | nil => simp [checkAdjacent]
    | cons m2 rest =>
      rw [List.chain'_cons]
      by_cases h : m1.TargetType = m2.SourceType
      · simp [checkAdjacent, h, ih (i + 1)]
      · simp [checkAdjacent, h]

theorem checkAdjacent_eq_firstMismatchedPair {Val Ty : Type} [DecidableEq Ty]
    (ms : List (TypedMapper Val Ty)) :
    ∀ i, checkAdjacent i ms = (firstMismatchedPair ms).map (· + i) := by
  induction ms with
  | nil => intro i; simp [checkAdjacent, firstMismatchedPair]
  | cons m1 tail ih =>
    intro i
    cases tail with
    | nil => simp [checkAdjacent, firstMismatchedPair]
    | cons m2 rest =>
      by_cases h : m1.TargetType = m2.SourceType
      · have hstep : checkAdjacent i (m1 :: m2 :: rest)
            = checkAdjacent (i + 1) (m2 :: rest) := by
          simp [checkAdjacent, h]
        rw [hstep, ih (i + 1)]
        cases hf : firstMismatchedPair (m2 :: rest) with
        | none => simp [firstMismatchedPair, h, hf]
        | some k =>
          simp [firstMismatchedPair, h, hf]
          omega
      · simp [checkAdjacent, firstMismatchedPair, h]

theorem newChainedMapper_ok_inv {Val Ty : Type} [DecidableEq Ty]
    {srcTy dstTy : Ty} {ms : List (TypedMapper Val Ty)} {c : ChainedMapper Val Ty}
    (h : NewChainedMapper srcTy dstTy ms = .ok c) :
    c = ⟨srcTy, dstTy, ms⟩ := by
  cases ms with
  | nil =>
    simp [NewChainedMapper] at h
    exact h.symm
  | cons m0 rest =>
    unfold NewChainedMapper at h
    by_cases h1 : m0.SourceType = srcTy
    · by_cases h2 : ((m0 :: rest).getLast (List.cons_ne_nil m0 rest)).TargetType = dstTy
      · cases hadj : checkAdjacent 0 (m0 :: rest) with
        | none => simp [h1, h2, hadj] at h; exact h.symm
        | some i => simp [h1, h2, hadj] at h
      · simp [h1, h2] at h
    · simp [h1] at h

theorem runMappers_of_composeSteps {Val Ty : Type}
    (ms : List (TypedMapper Val Ty)) :
    ∀ (v out : Val) (i : Nat),
      composeSteps ms v = .ok out → runMappers ms i v = .ok out := by
  induction ms with
  | nil =>
    intro v out i h
    simpa [composeSteps, runMappers] using h
  | cons m rest ih =>
    intro v out i h
    unfold composeSteps at h
    unfold runMappers
    cases hm : m.From v with
    | error e => simp [hm] at h
    | ok v2 =>
      simp only [hm] at h
      exact ih v2 out (i + 1) h

theorem runMappers_append_error {Val Ty : Type}
    (ms₁ : List (TypedMapper Val Ty)) :
    ∀ (v w : Val) (i : Nat) (m : TypedMapper Val Ty)
      (ms₂ : List (TypedMapper Val Ty)) (e : String),
      composeSteps ms₁ v = .ok w → m.From w = .error e →
      runMappers (ms₁ ++ m :: ms₂) i v = .error (i + ms₁.length + 1, e) := by
  induction ms₁ with
  | nil =>
    intro v w i m ms₂ e hpre hfail
    simp [composeSteps] at hpre
    subst hpre
    simp [runMappers, hfail]
  | cons m1 rest ih =>
    intro v w i m ms₂ e hpre hfail
    unfold composeSteps at hpre
    cases hm : m1.From v with
    | error e1 => simp [hm] at hpre
    | ok v2 =>
      simp only [hm] at hpre
      have hrec := ih v2 w (i + 1) m ms₂ e hpre hfail
      simp only [List.cons_append, runMappers, hm]
      show runMappers (rest ++ m :: ms₂) (i + 1) v2 = _
      rw [hrec]
      have harith : i + 1 + rest.length + 1 = i + (m1 :: rest).length + 1 := by
        simp only [List.length_cons]
        omega
      rw [harith]

/-! ### Claim theorems for the chain composer -/

/-- Claim C1: for every nonempty sequence of typed steps, `NewChainedMapper`
succeeds exactly when the first step's declared input type equals the declared
source type, the last step's declared output type equals the declared
destination type, and every adjacent pair of steps has matching output/input
types; on a violation it fails deterministically with the error of the first
violating location, in the priority order mismatched source endpoint,
mismatched destination endpoint, first offending adjacent pair index. -/
theorem newChainedMapper_adjacency {Val Ty : Type} [DecidableEq Ty]
    (srcTy dstTy : Ty) (ms : List (TypedMapper Val Ty)) (hne : ms ≠ []) :
    (NewChainedMapper srcTy dstTy ms = .ok ⟨srcTy, dstTy, ms⟩ ↔
      ((ms.head hne).SourceType = srcTy ∧ (ms.getLast hne).TargetType = dstTy ∧
        List.Chain' (fun a b => a.TargetType = b.SourceType) ms))
    ∧ ((ms.head hne).SourceType ≠ srcTy →
        NewChainedMapper srcTy dstTy ms
          = .error (.firstMapperMustAccept srcTy (ms.head hne).SourceType))
    ∧ ((ms.head hne).SourceType = srcTy → (ms.getLast hne).TargetType ≠ dstTy →
        NewChainedMapper srcTy dstTy ms
          = .error (.lastMapperMustProduce dstTy (ms.getLast hne).TargetType))
    ∧ (∀ i, (ms.head hne).SourceType = srcTy → (ms.getLast hne).TargetType = dstTy →
        firstMismatchedPair ms = some i →
        NewChainedMapper srcTy dstTy ms = .error (.typeMismatchBetween i (i + 1))) := by
  cases ms with
  | nil => exact absurd rfl hne
  | cons m0 rest =>
    simp only [List.head_cons]
    refine ⟨?_, ?_, ?_, ?_⟩
    · by_cases h1 : m0.SourceType = srcTy
      · by_cases h2 : ((m0 :: rest).getLast (List.cons_ne_nil m0 rest)).TargetType = dstTy
        · cases hadj : checkAdjacent 0 (m0 :: rest) with
          | none =>
            have hc := (checkAdjacent_none_iff (m0 :: rest) 0).mp hadj
            simp [NewChainedMapper, h1, h2, hadj, hc]
          | some i =>
            have hc : ¬ List.Chain' (fun a b => a.TargetType = b.SourceType) (m0 :: rest) := by
              intro hch
              rw [(checkAdjacent_none_iff (m0 :: rest) 0).mpr hch] at hadj
              cases hadj
            simp [NewChainedMapper, h1, h2, hadj, hc]
        · simp [NewChainedMapper, h1, h2]
      · simp [NewChainedMapper, h1]
    · intro h1
      simp [NewChainedMapper, h1]
    · intro h1 h2
      simp [NewChainedMapper, h1, h2]
    · intro i h1 h2 hfmp
      have hadj : checkAdjacent 0 (m0 :: rest) = some i := by
        rw [checkAdjacent_eq_firstMismatchedPair (m0 :: rest) 0, hfmp]
        simp
      simp [NewChainedMapper, h1, h2, hadj]

/-- Witness for C1: a one-step aligned chain is accepted, and a two-step chain
with aligned endpoints but a mismatched adjacent pair is rejected naming pair
index 0. -/
theorem newChainedMapper_adjacency_witness :
    NewChainedMapper (GoTy.base 1) (GoTy.base 1) [idStepB1]
      = .ok ⟨GoTy.base 1, GoTy.base 1, [idStepB1]⟩
    ∧ NewChainedMapper (GoTy.base 1) (GoTy.base 0) [idStepB1, idStepB0]
      = .error (.typeMismatchBetween 0 1) :=
  ⟨(newChainedMapper_adjacency (GoTy.base 1) (GoTy.base 1) [idStepB1]
      (List.cons_ne_nil _ _)).1.mpr ⟨rfl, rfl, by simp⟩,
   (newChainedMapper_adjacency (GoTy.base 1) (GoTy.base 0) [idStepB1, idStepB0]
      (List.cons_ne_nil _ _)).2.2.2 0 rfl rfl rfl⟩

/-- Counterexample to claim C2 as stated: `lyingStep` is a well-formed one-step
pipeline (construction succeeds) and the step succeeds on the input, yet `Map`
does not return the composition with no error: the final type assertion fails,
because the step's output value does not have the declared destination type. -/
theorem chainedMapper_composition_cex :
    NewChainedMapper (GoTy.base 1) (GoTy.base 1) [lyingStep]
      = .ok ⟨GoTy.base 1, GoTy.base 1, [lyingStep]⟩
    ∧ composeSteps [lyingStep] (GoVal.base 1 5) = .ok (GoVal.base 0 0)
    ∧ ChainedMapper.Map GoVal.typeOf ⟨GoTy.base 1, GoTy.base 1, [lyingStep]⟩ (GoVal.base 1 5)
      = .error (.finalTypeMismatch (GoTy.base 1)) :=
  ⟨rfl, rfl, rfl⟩

/-- Claim C2 (amended): for every well-formed pipeline and every input on which
each step succeeds, if additionally the composed result's runtime type equals
the declared destination type, then `Map` returns exactly the left-to-right
composition of the steps applied to the input, with no error. -/
theorem chainedMapper_map_composition {Val Ty : Type} [DecidableEq Ty]
    (typeOf : Val → Ty) (srcTy dstTy : Ty) (ms : List (TypedMapper Val Ty))
    (c : ChainedMapper Val Ty) (input out : Val)
    (hwf : NewChainedMapper srcTy dstTy ms = .ok c)
    (hsteps : composeSteps ms input = .ok out)
    (hty : typeOf out = dstTy) :
    ChainedMapper.Map typeOf c input = .ok out := by
  have hc := newChainedMapper_ok_inv hwf
  subst hc
  unfold ChainedMapper.Map
  rw [show (ChainedMapper.mk srcTy dstTy ms).mappers = ms from rfl,
      runMappers_of_composeSteps ms input out 0 hsteps]
  simp [hty]

/-- Witness for C2: a two-step chain (increment then double) maps 3 to 8. -/
theorem chainedMapper_map_composition_witness :
    ChainedMapper.Map GoVal.typeOf ⟨GoTy.base 1, GoTy.base 1, [incStep, doubleStep]⟩
      (GoVal.base 1 3) = .ok (GoVal.base 1 8) :=
  chainedMapper_map_composition GoVal.typeOf (GoTy.base 1) (GoTy.base 1)
    [incStep, doubleStep] ⟨GoTy.base 1, GoTy.base 1, [incStep, doubleStep]⟩
    (GoVal.base 1 3) (GoVal.base 1 8) rfl rfl rfl

/-- Counterexample to claim C3 as stated: a zero-step pipeline's construction
succeeds, but its `Map` does NOT fail for every input: on an input whose
runtime type equals the declared destination type it returns the input
unchanged with no error. -/
theorem chainedMapper_empty_map_cex :
    NewChainedMapper (GoTy.base 1) (GoTy.base 1) ([] : List (TypedMapper GoVal GoTy))
      = .ok ⟨GoTy.base 1, GoTy.base 1, []⟩
    ∧ ChainedMapper.Map GoVal.typeOf ⟨GoTy.base 1, GoTy.base 1, []⟩ (GoVal.base 1 7)
      = .ok (GoVal.base 1 7) :=
  ⟨rfl, rfl⟩

/-- Claim C3 (amended): constructing a pipeline with zero steps succeeds, and a
zero-step pipeline's `Map` fails exactly on the inputs whose runtime type
differs from the declared destination type, returning the final-type-mismatch
error; on inputs of the destination type it returns the input with no error. -/
theorem chainedMapper_empty_construction_and_map {Val Ty : Type} [DecidableEq Ty]
    (typeOf : Val → Ty) (srcTy dstTy : Ty) (input : Val) :
    NewChainedMapper srcTy dstTy ([] : List (TypedMapper Val Ty)) = .ok ⟨srcTy, dstTy, []⟩
    ∧ (typeOf input ≠ dstTy →
        ChainedMapper.Map typeOf ⟨srcTy, dstTy, []⟩ input
          = .error (.finalTypeMismatch dstTy))
    ∧ (typeOf input = dstTy →
        ChainedMapper.Map typeOf ⟨srcTy, dstTy, []⟩ input = .ok input) := by
  refine ⟨rfl, ?_, ?_⟩ <;> intro h <;> simp [ChainedMapper.Map, runMappers, h]

/-- Witness for C3 (amended): the zero-step pipeline on base type 1 rejects a
base-0 input with a final type mismatch and passes a base-1 input through. -/
theorem chainedMapper_empty_construction_and_map_witness :
    ChainedMapper.Map GoVal.typeOf ⟨GoTy.base 1, GoTy.base 1, []⟩ (GoVal.base 0 0)
      = .error (.finalTypeMismatch (GoTy.base 1))
    ∧ ChainedMapper.Map GoVal.typeOf ⟨GoTy.base 1, GoTy.base 1, []⟩ (GoVal.base 1 7)
      = .ok (GoVal.base 1 7) :=
  ⟨(chainedMapper_empty_construction_and_map GoVal.typeOf (GoTy.base 1) (GoTy.base 1)
      (GoVal.base 0 0)).2.1 (by decide),
   (chainedMapper_empty_construction_and_map GoVal.typeOf (GoTy.base 1) (GoTy.base 1)
      (GoVal.base 1 7)).2.2 rfl⟩

/-- Claim C4: if the steps before `m` all succeed, threading the input to the
value `v`, and `m.From v` fails with error `e`, then for EVERY list of later
steps the pipeline's `Map` returns the error wrapping `e` with the 1-based step
index of `m` — the conclusion does not depend on the later steps, so none of
them is invoked, and the `.error` result carries no partial output (Go returns
the zero destination value). -/
theorem chainedMapper_map_fail_fast {Val Ty : Type} [DecidableEq Ty]
    (typeOf : Val → Ty) (srcTy dstTy : Ty)
    (ms₁ : List (TypedMapper Val Ty)) (m : TypedMapper Val Ty)
    (input v : Val) (e : String)
    (hpre : composeSteps ms₁ input = .ok v)
    (hfail : m.From v = .error e) :
    ∀ ms₂ : List (TypedMapper Val Ty),
      ChainedMapper.Map typeOf ⟨srcTy, dstTy, ms₁ ++ m :: ms₂⟩ input
        = .error (.stepFailed (ms₁.length + 1) e) := by
  intro ms₂
  have h := runMappers_append_error ms₁ input v 0 m ms₂ e hpre hfail
  unfold ChainedMapper.Map
  rw [show (ChainedMapper.mk srcTy dstTy (ms₁ ++ m :: ms₂)).mappers
        = ms₁ ++ m :: ms₂ from rfl, h]
  simp

/-- Witness for C4: increment succeeds on 3 yielding 4, the second step fails
with boom, and the chain reports step 2 regardless of the third step. -/
theorem chainedMapper_map_fail_fast_witness :
    ChainedMapper.Map GoVal.typeOf
      ⟨GoTy.base 1, GoTy.base 1, [incStep, failStep, doubleStep]⟩ (GoVal.base 1 3)
      = .error (.stepFailed 2 "boom") :=
  chainedMapper_map_fail_fast GoVal.typeOf (GoTy.base 1) (GoTy.base 1)
    [incStep] failStep (GoVal.base 1 3) (GoVal.base 1 4) "boom" rfl rfl [doubleStep]

/-- Claim C10: a zero-step `ChainedMapper` acts as the identity on every input
whose runtime type equals the declared destination type, and its construction
performs no endpoint check at all — it succeeds for arbitrary (possibly
different) declared source and destination types. -/
theorem chainedMapper_empty_identity {Val Ty : Type} [DecidableEq Ty]
    (typeOf : Val → Ty) (srcTy dstTy : Ty) (input : Val)
    (h : typeOf input = dstTy) :
    NewChainedMapper srcTy dstTy ([] : List (TypedMapper Val Ty)) = .ok ⟨srcTy, dstTy, []⟩
    ∧ ChainedMapper.Map typeOf ⟨srcTy, dstTy, []⟩ input = .ok input :=
  ⟨rfl, by simp [ChainedMapper.Map, runMappers, h]⟩

/-- Witness for C10: a zero-step chain declared from base 0 to base 1 (distinct
endpoint types) is constructed successfully and passes a base-1 value through
unchanged. -/
theorem chainedMapper_empty_identity_witness :
    NewChainedMapper (GoTy.base 0) (GoTy.base 1) ([] : List (TypedMapper GoVal GoTy))
      = .ok ⟨GoTy.base 0, GoTy.base 1, []⟩
    ∧ ChainedMapper.Map GoVal.typeOf ⟨GoTy.base 0, GoTy.base 1, []⟩ (GoVal.base 1 3)
      = .ok (GoVal.base 1 3) :=
  chainedMapper_empty_identity GoVal.typeOf (GoTy.base 0) (GoTy.base 1) (GoVal.base 1 3) rfl

/-! ### Claim theorems for the aggregate mapper -/

theorem mapStruct_append_ok {Val Ty : Type} [DecidableEq Ty]
    (typeOf : Val → Ty) (input : SrcObj Val) (shape : DestShape Ty)
    (fms₁ : List (FieldMapperM Val)) :
    ∀ (st st₁ : DestState Val),
      mapStruct typeOf input shape st fms₁ = (st₁, none) →
      ∀ rest, mapStruct typeOf input shape st (fms₁ ++ rest)
        = mapStruct typeOf input shape st₁ rest := by
  induction fms₁ with
  | nil =>
    intro st st₁ h rest
    simp [mapStruct] at h
    subst h
    simp
  | cons fm fs ih =>
    intro st st₁ h rest
    cases hp : processBinding typeOf input shape st fm with
    | error e => simp [mapStruct, hp] at h
    | ok st2 =>
      simp only [mapStruct, hp] at h
      simp only [List.cons_append, mapStruct, hp]
      exact ih st2 st₁ h rest

/-- Claim C5: in a `StructMapper` whose bindings split as earlier bindings
(all succeeding, producing destination state `st₁`), a failing binding `fm`
(failing in any of the three phases, with wrapped error `e`), and ANY later
bindings, `From` returns exactly `(st₁, some e)`: the later bindings are never
evaluated (the result does not depend on them), the single error of the first
failing binding is returned, and the destination is exactly the state the
earlier bindings produced. -/
theorem structMapper_from_fail_fast {Val Ty : Type} [DecidableEq Ty]
    (typeOf : Val → Ty) (shape : DestShape Ty) (input : SrcObj Val)
    (fms₁ : List (FieldMapperM Val)) (fm : FieldMapperM Val)
    (st₁ : DestState Val) (e : MapStructErr Ty)
    (hpre : mapStruct typeOf input shape (zeroDest Val) fms₁ = (st₁, none))
    (hfail : processBinding typeOf input shape st₁ fm = .error e) :
    ∀ fms₂, StructMapper.From typeOf shape ⟨fms₁ ++ fm :: fms₂⟩ input = (st₁, some e) := by
  intro fms₂
  unfold StructMapper.From
  rw [show (StructMapper.mk (fms₁ ++ fm :: fms₂)).fieldMappings
        = fms₁ ++ fm :: fms₂ from rfl,
      mapStruct_append_ok typeOf input shape fms₁ (zeroDest Val) st₁ hpre (fm :: fms₂)]
  simp [mapStruct, hfail]

/-- Witness for C5: binding A maps and assigns X, binding B fails at extract
(field B is missing), the third binding is never evaluated; the partially
populated destination keeps X. -/
theorem structMapper_from_fail_fast_witness :
    StructMapper.From GoVal.typeOf destShapeW ⟨[fmAtoX, fmBtoX, fmAtoX]⟩ srcObjW
      = (⟨[("X", GoVal.base 0 1)], []⟩,
         some (.inputError "B" "field or zero-arg getter B not found")) :=
  structMapper_from_fail_fast GoVal.typeOf destShapeW srcObjW
    [fmAtoX] fmBtoX ⟨[("X", GoVal.base 0 1)], []⟩
    (.inputError "B" "field or zero-arg getter B not found") (by rfl) (by rfl) [fmAtoX]

/-- Counterexample to claim C6 as stated: on a keyed map that also has a
zero-argument accessor method of the same name, the code resolves the MAP KEY
(tier c in the claim ordering) even though an accessor method (the claim's
tier b) exists and would yield a different value, as the spec-order function
`getFieldValueByNameSpecOrder` shows. -/
theorem getFieldValueByName_order_cex :
    getFieldValueByName mapWithMethodObj "Foo" = .ok (GoVal.base 0 1)
    ∧ getFieldValueByNameSpecOrder mapWithMethodObj "Foo" = .ok (GoVal.base 0 2)
    ∧ GoVal.base 0 1 ≠ GoVal.base 0 2 :=
  ⟨rfl, rfl, by simp⟩

/-- Claim C6 (amended): the extract phase resolves with first match winning in
the order (a) exported struct field of that name, (b) map key of that name,
(c) zero-argument accessor method of that name; when none matches it fails
with the not-found error naming the source field. -/
theorem getFieldValueByName_resolution {Val : Type} (obj : SrcObj Val) (name : String) :
    (∀ fields v, obj.kind = .struct fields → lookupStr fields name = some (true, v) →
        getFieldValueByName obj name = .ok v)
    ∧ (∀ entries v, obj.kind = .keyed entries → lookupStr entries name = some v →
        getFieldValueByName obj name = .ok v)
    ∧ (∀ v, srcDirectMiss obj name → lookupStr obj.methods name = some v →
        getFieldValueByName obj name = .ok v)
    ∧ (srcDirectMiss obj name → lookupStr obj.methods name = none →
        getFieldValueByName obj name
          = .error ("field or zero-arg getter " ++ name ++ " not found")) := by
  obtain ⟨kind, methods⟩ := obj
  refine ⟨?_, ?_, ?_, ?_⟩
  · intro fields v hk hl
    cases hk
    simp [getFieldValueByName, hl]
  · intro entries v hk hl
    cases hk
    simp [getFieldValueByName, hl]
  · intro v hmiss hl
    unfold srcDirectMiss at hmiss
    cases kind with
    | struct fields =>
      rcases hmiss with hnone | ⟨w, hw⟩
      · simp [getFieldValueByName, hnone, hl]
      · simp [getFieldValueByName, hw, hl]
    | keyed entries => simp [getFieldValueByName, hmiss, hl]
    | other => simp [getFieldValueByName, hl]
  · intro hmiss hl
    unfold srcDirectMiss at hmiss
    cases kind with
    | struct fields =>
      rcases hmiss with hnone | ⟨w, hw⟩
      · simp [getFieldValueByName, hnone, hl]
      · simp [getFieldValueByName, hw, hl]
    | keyed entries => simp [getFieldValueByName, hmiss, hl]
    | other => simp [getFieldValueByName, hl]

/-- Witness for C6 (amended): a map key resolves directly, a method resolves
when no direct tier matches, and a miss on every tier yields the not-found
error naming the field. -/
theorem getFieldValueByName_resolution_witness :
    getFieldValueByName mapWithMethodObj "Foo" = .ok (GoVal.base 0 1)
    ∧ getFieldValueByName otherWithMethodObj "Bar" = .ok (GoVal.base 0 3)
    ∧ getFieldValueByName otherWithMethodObj "Baz"
      = .error ("field or zero-arg getter Baz not found") :=
  ⟨(getFieldValueByName_resolution mapWithMethodObj "Foo").2.1 _ _ rfl rfl,
   (getFieldValueByName_resolution otherWithMethodObj "Bar").2.2.1 _
     (by exact trivial) rfl,
   (getFieldValueByName_resolution otherWithMethodObj "Baz").2.2.2
     (by exact trivial) rfl⟩

/-- Counterexample to claim C7 as stated: with a settable field X of base
type 1 and a mutator method X accepting base type 0, assigning a base-0 value
makes the code fail immediately with the field type mismatch — it does not
fall through to the compatible mutator method, which the claim's
first-compatible-match rule (spec-order function) would invoke. -/
theorem assignValue_order_cex :
    assignValue GoVal.typeOf intFieldStrMethodShape ⟨[], []⟩ "X" (GoVal.base 0 9)
      = .error (.typeMismatch (GoTy.base 0) (GoTy.base 1))
    ∧ assignValueSpecOrder GoVal.typeOf intFieldStrMethodShape ⟨[], []⟩ "X" (GoVal.base 0 9)
      = .ok ⟨[], [("X", GoVal.base 0 9)]⟩ :=
  ⟨rfl, rfl⟩

/-- Claim C7 (amended): the assign phase gives a settable field of the
destination name absolute precedence: a compatible value is written to it, an
incompatible one fails immediately with the type-mismatch error and no method
fallback; only when no settable field of that name exists is a one-argument
mutator method of that name used, succeeding on a compatible value, failing
with the method type mismatch on an incompatible one, and failing with the
not-found error naming the destination field when no method exists either. -/
theorem assignValue_resolution {Val Ty : Type} [DecidableEq Ty] (typeOf : Val → Ty)
    (shape : DestShape Ty) (st : DestState Val) (toName : String) (value : Val) :
    (∀ f, lookupStr shape.fields toName = some f → f.canSet = true →
      typeOf value = f.ty →
      assignValue typeOf shape st toName value
        = .ok ⟨st.fieldVals ++ [(toName, value)], st.methodCalls⟩)
    ∧ (∀ f, lookupStr shape.fields toName = some f → f.canSet = true →
      typeOf value ≠ f.ty →
      assignValue typeOf shape st toName value
        = .error (.typeMismatch (typeOf value) f.ty))
    ∧ (∀ argTy, destFieldMiss shape toName →
      lookupStr shape.methods toName = some argTy → typeOf value = argTy →
      assignValue typeOf shape st toName value
        = .ok ⟨st.fieldVals, st.methodCalls ++ [(toName, value)]⟩)
    ∧ (∀ argTy, destFieldMiss shape toName →
      lookupStr shape.methods toName = some argTy → typeOf value ≠ argTy →
      assignValue typeOf shape st toName value
        = .error (.methodTypeMismatch toName (typeOf value) argTy))
    ∧ (destFieldMiss shape toName → lookupStr shape.methods toName = none →
      assignValue typeOf shape st toName value = .error (.notFound toName)) := by
  refine ⟨?_, ?_, ?_, ?_, ?_⟩
  · intro f hf hset hty
    simp [assignValue, hf, hset, hty]
  · intro f hf hset hty
    simp [assignValue, hf, hset, hty]
  · intro argTy hmiss hm hty
    rcases hmiss with hnone | ⟨f, hf, hset⟩
    · simp [assignValue, hnone, hm, hty]
    · simp [assignValue, hf, hset, hm, hty]
  · intro argTy hmiss hm hty
    rcases hmiss with hnone | ⟨f, hf, hset⟩
    · simp [assignValue, hnone, hm, hty]
    · simp [assignValue, hf, hset, hm, hty]
  · intro hmiss hm
    rcases hmiss with hnone | ⟨f, hf, hset⟩
    · simp [assignValue, hnone, hm]
    · simp [assignValue, hf, hset, hm]

/-- Witness for C7 (amended): a compatible settable field receives the value;
with only a non-settable field of that name, the mutator method is called. -/
theorem assignValue_resolution_witness :
    assignValue GoVal.typeOf destShapeW ⟨[], []⟩ "X" (GoVal.base 0 5)
      = .ok ⟨[("X", GoVal.base 0 5)], []⟩
    ∧ assignValue GoVal.typeOf nonsetFieldShape ⟨[], []⟩ "Y" (GoVal.base 1 5)
      = .ok ⟨[], [("Y", GoVal.base 1 5)]⟩ :=
  ⟨(assignValue_resolution GoVal.typeOf destShapeW ⟨[], []⟩ "X" (GoVal.base 0 5)).1
      _ rfl rfl rfl,
   (assignValue_resolution GoVal.typeOf nonsetFieldShape ⟨[], []⟩ "Y" (GoVal.base 1 5)).2.2.1
      _ (Or.inr ⟨⟨GoTy.base 1, false⟩, rfl, rfl⟩) rfl rfl⟩

/-! ### Claim theorems for the sequence lifter -/

/-- Claim C8 (code bug): the slice mapper built over a base-0 to base-1
element step declares its input type as the slice of the element input type,
as claimed, but its declared OUTPUT type is the element SOURCE type itself
(the Go body of `TargetType` reads the type parameter `T`), not the slice of
the element output type the claim and spec state; the element-wise mapping of
`From` itself does preserve length and order. -/
theorem sliceMapper_targetType_bug :
    strToIntSlice.SourceType = GoTy.slice (GoTy.base 0)
    ∧ strToIntSlice.TargetType = GoTy.base 0
    ∧ strToIntSlice.TargetType ≠ GoTy.slice (GoTy.base 1)
    ∧ strToIntSlice.From (GoVal.slice (GoTy.base 0) [.base 0 5, .base 0 5, .base 0 4])
      = .ok (GoVal.slice (GoTy.base 1) [.base 1 5, .base 1 5, .base 1 4]) :=
  ⟨rfl, rfl, by decide, rfl⟩

/-- Counterexample to claim C9 as stated: the element mapper fails on the
value 7 with the error boom; feeding a slice failing at element index 0 and a
slice failing at element index 1 returns the IDENTICAL error value, so the
returned error is the element transformer's error unchanged and carries no
annotation of the failing element's index. -/
theorem sliceMapper_from_error_cex :
    pickySlice.From (GoVal.slice (GoTy.base 0) [.base 0 7])
      = .error (.elementErr "boom")
    ∧ pickySlice.From (GoVal.slice (GoTy.base 0) [.base 0 1, .base 0 7])
      = .error (.elementErr "boom") :=
  ⟨rfl, rfl⟩

theorem sliceFromLoop_error_after (em : GoVal → Except String GoVal) (d : GoTy)
    (xs₁ : List GoVal) :
    ∀ (x : GoVal) (xs₂ : List GoVal) (e : String) (acc : List GoVal),
      (∀ y ∈ xs₁, ∃ z, em y = .ok z ∧ z.typeOf = d) →
      em x = .error e →
      sliceFromLoop em d (xs₁ ++ x :: xs₂) acc = .error (.elementErr e) := by
  induction xs₁ with
  | nil =>
    intro x xs₂ e acc hpre hfail
    simp [sliceFromLoop, hfail]
  | cons y ys ih =>
    intro x xs₂ e acc hpre hfail
    obtain ⟨z, hz, hzt⟩ := hpre y (by simp)
    simp only [List.cons_append, sliceFromLoop, hz, hzt, if_true]
    exact ih x xs₂ e (acc ++ [z]) (fun y2 hy2 => hpre y2 (by simp [hy2])) hfail

/-- Claim C9 (amended): when the elements before `x` all transform
successfully (with outputs of the declared element output type, so the Go cast
does not panic) and the element mapper fails on `x` with error `e`, then for
EVERY later suffix the slice mapper's `From` returns the element error `e`
unchanged — the result does not depend on the later elements, so none of them
is transformed, no partial slice is returned, and the error carries no index
annotation. -/
theorem sliceMapper_from_fail_fast (sm : SliceMapper)
    (xs₁ : List GoVal) (x : GoVal) (e : String)
    (hpre : ∀ y ∈ xs₁, ∃ z, sm.elementMapper.From y = .ok z ∧ z.typeOf = sm.elemDstTy)
    (hfail : sm.elementMapper.From x = .error e) :
    ∀ xs₂, sm.From (GoVal.slice sm.elemSrcTy (xs₁ ++ x :: xs₂))
      = .error (.elementErr e) := by
  intro xs₂
  have h := sliceFromLoop_error_after sm.elementMapper.From sm.elemDstTy xs₁
    x xs₂ e [] hpre hfail
  simp [SliceMapper.From, h]

/-- Witness for C9 (amended): the element mapper succeeds on 1, fails on 7,
and the slice mapper returns boom unannotated regardless of the trailing 2. -/
theorem sliceMapper_from_fail_fast_witness :
    pickySlice.From (GoVal.slice (GoTy.base 0) [.base 0 1, .base 0 7, .base 0 2])
      = .error (.elementErr "boom") :=
  sliceMapper_from_fail_fast pickySlice [.base 0 1] (.base 0 7) "boom"
    (by intro y hy; simp at hy; subst hy; exact ⟨.base 1 1, rfl, rfl⟩) rfl
    [.base 0 2]

end Gomorph
